import Mathlib

/-!
# Shallow embedding of the timeline annotation engine of `KPIChart.js`

This file models the annotation subsystem of the THD dashboard's trend
chart (`frontend/src/components/KPIChart.js`): the coordinate mapper
(`getDateIndexFromX`, `getXPositionForIndex`, `getDateFromIndex`), the
suggested-event reconciler (`pinnedEventIds`, `getFilteredEvents`), the
pin command, and the edit-session handlers (`handleDrop`,
`handleStartDateChange`, `handleEndDateChange`, `handleSaveTagEdit`,
`handleConvertToSpan`, `handleConvertToPoint`).

Modelling conventions:
* JS numbers used for pixel geometry are modelled by `ℚ` (exact rationals;
  `Math.round` is round-half-up).  Over `ℚ`, division by zero yields `0`
  where JS would yield an infinity or NaN; every theorem below is
  insensitive to this because the source clamps the quotient.
* Calendar dates, held as `"YYYY-MM-DD"` strings in the source and
  compared after `new Date(s + 'T00:00:00').getTime()`, are modelled by
  their epoch-millisecond timestamps (`Int`).  This mapping is injective
  on well-formed date strings, and a well-formed date string is always
  truthy, so JS truthiness tests on date values (`if (targetDate)`,
  `|| null`) reduce to presence, which we model with `Option`.
* A JS object field that may be absent is modelled with `Option` when its
  truthiness is tested (`sourceEventId`), and with the field's default
  value otherwise.
* Nondeterministic inputs of a handler (generated unique ids,
  `Date.now()`) are passed as explicit parameters.
-/

namespace THD

/-- `Y_AXIS_WIDTH` constant of `KPIChart.js`. -/
def Y_AXIS_WIDTH : ℚ := 60

/-- `CHART_MARGINS.left` constant of `KPIChart.js`. -/
def CHART_MARGINS_left : ℚ := 10

/-- `CHART_MARGINS.right` constant of `KPIChart.js`. -/
def CHART_MARGINS_right : ℚ := 20

/-- Milliseconds in one day, `24 * 60 * 60 * 1000`. -/
def MS_PER_DAY : Int := 24 * 60 * 60 * 1000

/-- The flat last-year shift used by `getFilteredEvents`:
`365 * 24 * 60 * 60 * 1000` milliseconds. -/
def YEAR_SHIFT_MS : Int := 365 * MS_PER_DAY

/-- JS `Math.round`: round half toward positive infinity. -/
def jsRound (q : ℚ) : Int := Int.floor (q + 1/2)

/-- JS array indexing `l[i]` with a possibly out-of-range `Int` index:
`undefined` (here `none`) outside `[0, l.length)`. -/
def jsIndex {α : Type} (l : List α) (i : Int) : Option α :=
  if i < 0 then none else l.get? i.toNat

/-- One plotted sample (`{date, value}` in the chart data).  The date is
an epoch-ms timestamp (see the header); `value` is carried opaquely. -/
structure ChartPoint where
  date : Int
  value : Option ℚ := none
  deriving Repr, DecidableEq

/-- The bounding client rect of the chart container, as used by
`getDateIndexFromX` (`rect.left`, `rect.width`). -/
structure Rect where
  left : ℚ
  width : ℚ
  deriving Repr, DecidableEq

/-- `getDateIndexFromX(clientX)` of `KPIChart.js`: maps a pixel position
to a sample index.  Returns `-1` when the chart data is empty or no
container rect is available; otherwise rounds the normalized position
within the usable width and clamps to `[0, N-1]`. -/
def getDateIndexFromX (chartData : List ChartPoint) (rect : Option Rect)
    (clientX : ℚ) : Int :=
  if chartData.length = 0 then -1
  else
    match rect with
    | none => -1
    | some r =>
      let chartAreaLeft := Y_AXIS_WIDTH + CHART_MARGINS_left
      let chartAreaWidth := r.width - chartAreaLeft - CHART_MARGINS_right
      let relativeX := clientX - r.left - chartAreaLeft
      let percentage := max 0 (min 1 (relativeX / chartAreaWidth))
      let dataIndex := jsRound (percentage * ((chartData.length : ℚ) - 1))
      max 0 (min dataIndex ((chartData.length : Int) - 1))

/-- `getXPositionForIndex(index)` of `KPIChart.js`.  `width` is the
effective container width (`containerWidth || offsetWidth || 0`).
Returns `0` when the data is empty, the index is negative, or the width
is `0`; for a single sample returns the midpoint of the usable width. -/
def getXPositionForIndex (chartData : List ChartPoint) (width : ℚ)
    (index : Int) : ℚ :=
  if chartData.length = 0 ∨ index < 0 then 0
  else if width = 0 then 0
  else
    let chartAreaLeft := Y_AXIS_WIDTH + CHART_MARGINS_left
    let chartAreaWidth := width - chartAreaLeft - CHART_MARGINS_right
    if chartData.length = 1 then chartAreaLeft + chartAreaWidth / 2
    else
      let percentage := (index : ℚ) / ((chartData.length : ℚ) - 1)
      chartAreaLeft + percentage * chartAreaWidth

/-- `getDateFromIndex(index)` of `KPIChart.js`: the date at a sample
index, `null` (`none`) when the data is empty or the index is out of
range. -/
def getDateFromIndex (chartData : List ChartPoint) (index : Int) :
    Option Int :=
  if chartData.length = 0 ∨ index < 0 ∨ (chartData.length : Int) ≤ index
  then none
  else (jsIndex chartData index).map (fun p => p.date)

/-- An annotation (a "tag" in `KPIChart.js`).  Fields a given code path
leaves unset keep their JS-default-like value here; `sourceEventId` is
`none` for purely manual annotations and `some eventId` for pinned
suggestions.  `adjustedStart`/`adjustedEnd` hold the ISO strings the
source stores, represented by their timestamps; `createdAt`/`updatedAt`
likewise. -/
structure Tag where
  id : String
  name : String := ""
  owner : String := ""
  description : String := ""
  color : String := ""
  date : Int := 0
  startDate : Int := 0
  endDate : Int := 0
  dateIndex : Int := 0
  startIndex : Int := 0
  endIndex : Int := 0
  isSpan : Bool := false
  isManual : Bool := false
  sourceEventId : Option String := none
  adjustedStart : Int := 0
  adjustedEnd : Int := 0
  yearLabel : String := ""
  tier : Bool := false
  source : String := ""
  createdAt : Int := 0
  updatedAt : Int := 0
  deriving Repr, DecidableEq

/-- An externally supplied suggested event (`events` prop entry). -/
structure RawEvent where
  id : String
  label : String
  startDate : Int
  endDate : Int
  tier : Bool := false
  color : String := ""
  deriving Repr, DecidableEq

/-- A visible suggested event as produced by `getFilteredEvents`: the raw
event plus the adjusted (possibly year-shifted) range and the uniform
year label. -/
structure VisibleEvent extends RawEvent where
  adjustedStart : Int
  adjustedEnd : Int
  yearLabel : String
  deriving Repr, DecidableEq

/-- `pinnedEventIds` of `KPIChart.js`:
`chartTags.filter(t => t.sourceEventId).map(t => t.sourceEventId)`.
Truthiness of `sourceEventId` is presence (ids are non-empty strings). -/
def pinnedEventIds (chartTags : List Tag) : List String :=
  (chartTags.filter (fun t => t.sourceEventId.isSome)).map
    (fun t => t.sourceEventId.getD "")

/-- `getFilteredEvents()` of `KPIChart.js`, the suggested-event
reconciler: drops dismissed and already-pinned events, year-shifts both
bounds by a flat 365 days when `displayMode == 'ly'`, attaches the
uniform year label, and keeps only events whose adjusted range overlaps
the chart's date range. -/
def getFilteredEvents (events : List RawEvent) (chartData : List ChartPoint)
    (displayMode : String) (dismissedEvents : List String)
    (chartTags : List Tag) : List VisibleEvent :=
  if events.length = 0 ∨ chartData.length = 0 then []
  else
    match chartData.head?, chartData.getLast? with
    | some firstPt, some lastPt =>
      let chartStart := firstPt.date
      let chartEnd := lastPt.date
      let yearLabel := if displayMode = "ly" then "LY" else "TY"
      ((((events.filter
            (fun ev => ¬ (dismissedEvents.contains ev.id))).filter
            (fun ev => ¬ ((pinnedEventIds chartTags).contains ev.id))).map
            (fun ev =>
              let evStart := ev.startDate
              let evEnd := ev.endDate
              let evStart :=
                if displayMode = "ly" then evStart - YEAR_SHIFT_MS else evStart
              let evEnd :=
                if displayMode = "ly" then evEnd - YEAR_SHIFT_MS else evEnd
              ({ toRawEvent := ev, adjustedStart := evStart,
                 adjustedEnd := evEnd, yearLabel := yearLabel } :
                VisibleEvent))).filter
            (fun ve => ve.adjustedStart ≤ chartEnd ∧ chartStart ≤ ve.adjustedEnd))
    | _, _ => []

/-- The pin command (the `event-span-pin-btn` onClick of
`renderSingleSpan`): appends one new tag built from a visible suggested
event.  `uniqueId` stands for the generated
`pinned-${ev.id}-${Date.now()}` id. -/
def pinEvent (chartTags : List Tag) (ev : VisibleEvent) (uniqueId : String) :
    List Tag :=
  chartTags ++
    [{ id := uniqueId, name := ev.label, color := ev.color,
       sourceEventId := some ev.id, isSpan := true,
       startDate := ev.startDate, endDate := ev.endDate,
       adjustedStart := ev.adjustedStart, adjustedEnd := ev.adjustedEnd,
       yearLabel := ev.yearLabel, tier := ev.tier, source := "suggested" }]

/-- The transient edit buffer `editingTagData` of one open edit session:
draft name, owner, description, and the draft date range both as dates
and as sample indices. -/
structure EditData where
  name : String
  owner : String := ""
  description : String := ""
  startDate : Int
  endDate : Int
  startIndex : Int
  endIndex : Int
  deriving Repr, DecidableEq

/-- The editor part of the component state: `editingTagId` and
`editingTagData`.  Both are `none` when no edit session is open. -/
structure EditorState where
  editingTagId : Option String
  editingTagData : Option EditData
  deriving Repr, DecidableEq

/-- `handleDrop` of `KPIChart.js`: committing a drag at pixel `clientX`.
No-op (returning the store and editor state unchanged) when no tag is
being dragged, the data is empty, or no sample resolves under the drop
position; otherwise appends one new point tag at the drop index and opens
an edit session seeded from it.  `uniqueId` stands for the generated
`${draggedTag.id}-${Date.now()}-${random}` id and `now` for
`Date.now()`. -/
def handleDrop (st : EditorState) (draggedTag : Option Tag)
    (chartData : List ChartPoint) (chartTags : List Tag)
    (rect : Option Rect) (clientX : ℚ) (uniqueId : String) (now : Int) :
    List Tag × EditorState :=
  match draggedTag with
  | none => (chartTags, st)
  | some dt =>
    if chartData.length = 0 then (chartTags, st)
    else
      let dateIndex := getDateIndexFromX chartData rect clientX
      match jsIndex chartData dateIndex with
      | none => (chartTags, st)
      | some pt =>
        let targetDate := pt.date
        let newTag : Tag :=
          { dt with
            id := uniqueId,
            date := targetDate,
            startDate := targetDate,
            endDate := targetDate,
            dateIndex := dateIndex,
            startIndex := dateIndex,
            endIndex := dateIndex,
            isSpan := false,
            isManual := true,
            createdAt := now }
        (chartTags ++ [newTag],
         { editingTagId := some uniqueId,
           editingTagData := some
             { name := newTag.name, owner := newTag.owner,
               description := newTag.description,
               startDate := targetDate, endDate := targetDate,
               startIndex := dateIndex, endIndex := dateIndex } })

/-- `handleStartDateChange(newIndex)` of `KPIChart.js`: moves the draft
start to `newIndex` (no-op when out of range or no date resolves there),
pulling the draft end up to match when the new start exceeds it. -/
def handleStartDateChange (chartData : List ChartPoint) (ed : EditData)
    (newIndex : Int) : EditData :=
  if newIndex < 0 ∨ (chartData.length : Int) ≤ newIndex then ed
  else
    match getDateFromIndex chartData newIndex with
    | none => ed
    | some newStartDate =>
      let endIndex := if ed.endIndex < newIndex then newIndex
                      else ed.endIndex
      { ed with
        startDate := newStartDate,
        startIndex := newIndex,
        endDate := (getDateFromIndex chartData endIndex).getD ed.endDate,
        endIndex := endIndex }

/-- `handleEndDateChange(newIndex)` of `KPIChart.js`: symmetric to
`handleStartDateChange`, pulling the draft start down to match when the
new end precedes it. -/
def handleEndDateChange (chartData : List ChartPoint) (ed : EditData)
    (newIndex : Int) : EditData :=
  if newIndex < 0 ∨ (chartData.length : Int) ≤ newIndex then ed
  else
    match getDateFromIndex chartData newIndex with
    | none => ed
    | some newEndDate =>
      let startIndex := if newIndex < ed.startIndex then newIndex
                        else ed.startIndex
      { ed with
        endDate := newEndDate,
        endIndex := newIndex,
        startDate := (getDateFromIndex chartData startIndex).getD ed.startDate,
        startIndex := startIndex }

/-- `handleSaveTagEdit` of `KPIChart.js`: no-op when no session is open;
otherwise writes the draft fields into every stored tag whose id is the
session's target id (setting the legacy `date`/`dateIndex` fields from
the draft start and `isSpan` from index inequality) and closes the
editor.  `now` stands for `Date.now()` (the `updatedAt` stamp). -/
def handleSaveTagEdit (chartTags : List Tag) (displayMode : String)
    (st : EditorState) (now : Int) : List Tag × EditorState :=
  match st.editingTagId, st.editingTagData with
  | some tid, some ed =>
    let isSpan := ed.startIndex ≠ ed.endIndex
    let updatedTags := chartTags.map (fun tag =>
      if tag.id = tid then
        { tag with
          name := ed.name,
          owner := ed.owner,
          description := ed.description,
          startDate := ed.startDate,
          endDate := ed.endDate,
          date := ed.startDate,
          startIndex := ed.startIndex,
          endIndex := ed.endIndex,
          dateIndex := ed.startIndex,
          isSpan := isSpan,
          adjustedStart := ed.startDate,
          adjustedEnd := ed.endDate,
          yearLabel := if displayMode = "ly" then "LY" else "TY",
          updatedAt := now }
      else tag)
    (updatedTags, { editingTagId := none, editingTagData := none })
  | _, _ => (chartTags, st)

/-- `handleConvertToSpan` of `KPIChart.js`: extends a draft to a span of
`defaultSpanDays = 3` samples past the draft start, clamped to the last
sample. -/
def handleConvertToSpan (chartData : List ChartPoint) (ed : EditData) :
    EditData :=
  let currentIndex := ed.startIndex
  let defaultSpanDays : Int := 3
  let newEndIndex := min (currentIndex + defaultSpanDays)
    ((chartData.length : Int) - 1)
  { ed with
    endDate := (getDateFromIndex chartData newEndIndex).getD ed.endDate,
    endIndex := newEndIndex }

/-- `handleConvertToPoint` of `KPIChart.js`: collapses the draft back to
a point at the draft start. -/
def handleConvertToPoint (ed : EditData) : EditData :=
  { ed with endDate := ed.startDate, endIndex := ed.startIndex }

/-- One draft-range edit operation (claim C8 quantifies over sequences of
these). -/
inductive EditOp where
  | changeStart (i : Int)
  | changeEnd (i : Int)
  deriving Repr, DecidableEq

/-- Apply one `EditOp` to an open session's draft. -/
def applyEditOp (chartData : List ChartPoint) (ed : EditData) :
    EditOp → EditData
  | EditOp.changeStart i => handleStartDateChange chartData ed i
  | EditOp.changeEnd i => handleEndDateChange chartData ed i

/-- Apply a finite sequence of `EditOp`s in order. -/
def applyEditOps (chartData : List ChartPoint) (ed : EditData)
    (ops : List EditOp) : EditData :=
  ops.foldl (applyEditOp chartData) ed

/-! ## Concrete sample inputs

Small closed values used by the concrete witness and counterexample
theorems below. -/

/-- A five-sample chart data sequence (dates are arbitrary distinct
timestamps). -/
def cd5 : List ChartPoint := [⟨0, none⟩, ⟨1, none⟩, ⟨2, none⟩, ⟨3, none⟩, ⟨4, none⟩]

/-- A draft spanning indices 1..2 with all text fields set. -/
def edSpanDraft : EditData := ⟨"Promo", "o", "d", 5, 7, 1, 2⟩

/-- A draft with an empty name (the C1 scenario). -/
def edEmptyName : EditData := ⟨"", "", "", 3, 3, 1, 1⟩

/-- A stored tag that only has an id. -/
def tagBare : Tag := { id := "t1" }

/-- A stored tag with an id and a name. -/
def tagPromo : Tag := { id := "t1", name := "Promo" }

/-- The tag expected after saving `edSpanDraft` over `tagBare` in mode
`"both"` at time `9`. -/
def tagSaved : Tag :=
  { id := "t1",
    name := "Promo",
    owner := "o",
    description := "d",
    date := 5,
    startDate := 5,
    endDate := 7,
    dateIndex := 1,
    startIndex := 1,
    endIndex := 2,
    isSpan := true,
    adjustedStart := 5,
    adjustedEnd := 7,
    yearLabel := "TY",
    updatedAt := 9 }

/-- A three-sample chart data sequence covering days 195..205. -/
def cd3 : List ChartPoint :=
  [⟨195 * 86400000, none⟩, ⟨200 * 86400000, none⟩, ⟨205 * 86400000, none⟩]

/-- A raw suggested event on days 565..566; its flat 365-day shift lands
on days 200..201, inside `cd3`'s range. -/
def evThanks : RawEvent :=
  ⟨"e1", "Thanksgiving", 565 * 86400000, 566 * 86400000, false, ""⟩

/-- The visible event the reconciler derives from `evThanks` in `"ly"`
mode. -/
def veThanks : VisibleEvent :=
  ⟨evThanks, 200 * 86400000, 201 * 86400000, "LY"⟩

/-- A stored tag pinned from some other suggested event `"e3"`. -/
def tagPinnedE3 : Tag := { id := "p3", sourceEventId := some "e3" }

/-! ## Helper lemmas -/

theorem jsRound_zero : jsRound 0 = 0 := by
  have h : ((0 : ℚ) + 1/2) ∈ Set.Ico (0 : ℚ) 1 := by
    constructor <;> norm_num
  simpa [jsRound] using Int.floor_eq_zero_iff.mpr h

theorem getDateIndexFromX_range (chartData : List ChartPoint) (r : Rect)
    (x : ℚ) (h : 1 ≤ chartData.length) :
    0 ≤ getDateIndexFromX chartData (some r) x ∧
      getDateIndexFromX chartData (some r) x ≤ (chartData.length : Int) - 1 := by
  have hne : ¬ chartData.length = 0 := by omega
  simp only [getDateIndexFromX, if_neg hne]
  refine ⟨le_max_left _ _, max_le (by omega) (min_le_right _ _)⟩

theorem jsIndex_eq_some_of_range {α : Type} (l : List α) (i : Int)
    (h0 : 0 ≤ i) (h1 : i < (l.length : Int)) :
    ∃ a, jsIndex l i = some a := by
  have hn : i.toNat < l.length := by omega
  refine ⟨l.get ⟨i.toNat, hn⟩, ?_⟩
  rw [jsIndex, if_neg (by omega)]
  exact List.get?_eq_get hn

/-! ## Claim C6: `indexForPixel` clamping and small sequences -/

/-- C6 (amended): for a nonempty data sequence and an available container
rect, `getDateIndexFromX` returns an index in `[0, N-1]` for every pixel
`x`, and returns `0` whenever `N = 1`; for the empty sequence it returns
the sentinel `-1`, not `0`. -/
theorem thd_C6 (chartData : List ChartPoint) (r : Rect) (x : ℚ)
    (h : 1 ≤ chartData.length) :
    (0 ≤ getDateIndexFromX chartData (some r) x ∧
      getDateIndexFromX chartData (some r) x ≤ (chartData.length : Int) - 1) ∧
    (chartData.length = 1 → getDateIndexFromX chartData (some r) x = 0) ∧
    getDateIndexFromX [] (some r) x = -1 := by
  refine ⟨getDateIndexFromX_range chartData r x h, ?_, rfl⟩
  intro h1
  have hne : ¬ chartData.length = 0 := by omega
  simp [getDateIndexFromX, if_neg hne, h1, jsRound_zero]

/-- C6, counterexample to the claim as stated: for the empty sequence the
source returns `-1`, not `0`. -/
theorem thd_C6_counterexample :
    getDateIndexFromX [] (some { left := 0, width := 500 }) 100 = -1 ∧
    (-1 : Int) ≠ 0 :=
  ⟨rfl, by decide⟩

/-- C6, witness: the amended theorem applied to the one-sample sequence. -/
theorem thd_C6_witness :
    1 ≤ ([⟨0, none⟩] : List ChartPoint).length ∧
    ((0 ≤ getDateIndexFromX [⟨0, none⟩] (some { left := 0, width := 500 }) 123 ∧
        getDateIndexFromX [⟨0, none⟩] (some { left := 0, width := 500 }) 123 ≤
          (([⟨0, none⟩] : List ChartPoint).length : Int) - 1) ∧
      (([⟨0, none⟩] : List ChartPoint).length = 1 →
        getDateIndexFromX [⟨0, none⟩] (some { left := 0, width := 500 }) 123 = 0) ∧
      getDateIndexFromX [] (some { left := 0, width := 500 }) 123 = -1) :=
  ⟨by decide, thd_C6 [⟨0, none⟩] { left := 0, width := 500 } 123 (by decide)⟩

/-! ## Claim C7: `pixelForIndex` on degenerate sequences -/

/-- C7 (amended): for a one-sample sequence (nonzero effective width,
nonnegative index) `getXPositionForIndex` returns the midpoint of the
usable width — the left inset plus half the usable width; for the empty
sequence it returns `0`, not the left inset. -/
theorem thd_C7 (chartData : List ChartPoint) (w : ℚ) (i : Int)
    (h1 : chartData.length = 1) (hw : ¬ w = 0) (hi : 0 ≤ i) :
    getXPositionForIndex chartData w i =
      (Y_AXIS_WIDTH + CHART_MARGINS_left) +
        (w - (Y_AXIS_WIDTH + CHART_MARGINS_left) - CHART_MARGINS_right) / 2 ∧
    getXPositionForIndex [] w i = 0 := by
  constructor
  · have hni : ¬ i < 0 := by omega
    simp [getXPositionForIndex, h1, hw, hni]
  · simp [getXPositionForIndex]

/-- C7, counterexample to the claim as stated: for the empty sequence the
source returns `0`, which is not the left inset (`70`). -/
theorem thd_C7_counterexample :
    getXPositionForIndex [] 500 0 = 0 ∧
    (0 : ℚ) ≠ Y_AXIS_WIDTH + CHART_MARGINS_left := by
  refine ⟨by simp [getXPositionForIndex],
    by norm_num [Y_AXIS_WIDTH, CHART_MARGINS_left]⟩

/-- C7, witness: the amended theorem applied to a one-sample sequence at
width `500`. -/
theorem thd_C7_witness :
    ([⟨0, none⟩] : List ChartPoint).length = 1 ∧ ¬ (500 : ℚ) = 0 ∧
    (0 : Int) ≤ 0 ∧
    (getXPositionForIndex [⟨0, none⟩] 500 0 =
        (Y_AXIS_WIDTH + CHART_MARGINS_left) +
          ((500 : ℚ) - (Y_AXIS_WIDTH + CHART_MARGINS_left) -
            CHART_MARGINS_right) / 2 ∧
      getXPositionForIndex [] (500 : ℚ) 0 = 0) :=
  ⟨by decide, by simp, by decide,
    thd_C7 [⟨0, none⟩] 500 0 (by decide) (by simp) (by decide)⟩

/-! ## Claim C9: point/span conversion -/

/-- C9 (confirmed): for an open session over `N ≥ 1` samples whose draft
is a point, `handleConvertToSpan` sets the draft end to
`min(start + 3, N-1)` leaving the start unchanged, and an immediate
`handleConvertToPoint` restores `end = start =` the index held before
the conversion. -/
theorem thd_C9 (chartData : List ChartPoint) (ed : EditData)
    (_hN : 1 ≤ chartData.length) (hpoint : ed.startIndex = ed.endIndex) :
    (handleConvertToSpan chartData ed).startIndex = ed.startIndex ∧
    (handleConvertToSpan chartData ed).endIndex =
      min (ed.startIndex + 3) ((chartData.length : Int) - 1) ∧
    (handleConvertToPoint (handleConvertToSpan chartData ed)).startIndex =
      ed.startIndex ∧
    (handleConvertToPoint (handleConvertToSpan chartData ed)).endIndex =
      ed.startIndex ∧
    (handleConvertToPoint (handleConvertToSpan chartData ed)).endIndex =
      ed.endIndex := by
  refine ⟨rfl, rfl, rfl, rfl, ?_⟩
  simp [handleConvertToPoint, handleConvertToSpan, hpoint]

/-! ## Claim C10: saved annotations classify point vs span consistently -/

/-- C10 (confirmed): every tag carrying the session's target id after a
committed save has `isSpan` true exactly when the draft indices differ,
legacy `date`/`dateIndex` equal to the draft start date/index, and its
span flag agrees with its own stored index range. -/
theorem thd_C10 (chartTags : List Tag) (displayMode : String) (tid : String)
    (ed : EditData) (now : Int) (t : Tag)
    (ht : t ∈ (handleSaveTagEdit chartTags displayMode
      ⟨some tid, some ed⟩ now).1) (hid : t.id = tid) :
    (t.isSpan = true ↔ ed.startIndex ≠ ed.endIndex) ∧
    t.startIndex = ed.startIndex ∧ t.endIndex = ed.endIndex ∧
    t.date = ed.startDate ∧ t.dateIndex = ed.startIndex ∧
    t.startDate = ed.startDate ∧
    (t.isSpan = true ↔ t.startIndex ≠ t.endIndex) := by
  simp only [handleSaveTagEdit] at ht
  obtain ⟨t0, ht0, rfl⟩ := List.mem_map.mp ht
  by_cases h : t0.id = tid
  · simp [h]
  · simp [h] at hid

/-- C9, witness: a point draft at index 1 over five samples. -/
theorem thd_C9_witness :
    1 ≤ cd5.length ∧
    (⟨"Promo", "", "", 1, 1, 1, 1⟩ : EditData).startIndex =
      (⟨"Promo", "", "", 1, 1, 1, 1⟩ : EditData).endIndex ∧
    ((handleConvertToSpan cd5 ⟨"Promo", "", "", 1, 1, 1, 1⟩).startIndex =
      (⟨"Promo", "", "", 1, 1, 1, 1⟩ : EditData).startIndex ∧
    (handleConvertToSpan cd5 ⟨"Promo", "", "", 1, 1, 1, 1⟩).endIndex =
      min ((⟨"Promo", "", "", 1, 1, 1, 1⟩ : EditData).startIndex + 3)
        ((cd5.length : Int) - 1) ∧
    (handleConvertToPoint
        (handleConvertToSpan cd5 ⟨"Promo", "", "", 1, 1, 1, 1⟩)).startIndex =
      (⟨"Promo", "", "", 1, 1, 1, 1⟩ : EditData).startIndex ∧
    (handleConvertToPoint
        (handleConvertToSpan cd5 ⟨"Promo", "", "", 1, 1, 1, 1⟩)).endIndex =
      (⟨"Promo", "", "", 1, 1, 1, 1⟩ : EditData).startIndex ∧
    (handleConvertToPoint
        (handleConvertToSpan cd5 ⟨"Promo", "", "", 1, 1, 1, 1⟩)).endIndex =
      (⟨"Promo", "", "", 1, 1, 1, 1⟩ : EditData).endIndex) :=
  ⟨by decide, by decide,
    thd_C9 cd5 ⟨"Promo", "", "", 1, 1, 1, 1⟩ (by decide) (by decide)⟩

/-- C10, witness: saving the draft `edSpanDraft` (indices 1..2) into a
one-tag store yields `tagSaved`, whose span flag agrees with its index
range. -/
theorem thd_C10_witness :
    tagSaved ∈ (handleSaveTagEdit [tagBare] "both"
      ⟨some "t1", some edSpanDraft⟩ 9).1 ∧
    tagSaved.id = "t1" ∧
    ((tagSaved.isSpan = true ↔
        edSpanDraft.startIndex ≠ edSpanDraft.endIndex) ∧
      tagSaved.startIndex = edSpanDraft.startIndex ∧
      tagSaved.endIndex = edSpanDraft.endIndex ∧
      tagSaved.date = edSpanDraft.startDate ∧
      tagSaved.dateIndex = edSpanDraft.startIndex ∧
      tagSaved.startDate = edSpanDraft.startDate ∧
      (tagSaved.isSpan = true ↔ tagSaved.startIndex ≠ tagSaved.endIndex)) :=
  ⟨by decide, by decide,
    thd_C10 [tagBare] "both" "t1" edSpanDraft 9 tagSaved (by decide)
      (by decide)⟩

/-! ## Claim C1: saving with an empty draft name -/

/-- C1, counterexample to the claim as stated: `handleSaveTagEdit` has no
empty-name guard, so saving a session whose draft name is `""` changes
the store (the target tag's name becomes empty) and closes the session
instead of rejecting the save. -/
theorem thd_C1_counterexample :
    (handleSaveTagEdit [tagPromo] "both"
        ⟨some "t1", some edEmptyName⟩ 9).1 ≠ [tagPromo] ∧
    (handleSaveTagEdit [tagPromo] "both"
        ⟨some "t1", some edEmptyName⟩ 9).2.editingTagId = none := by
  constructor <;> decide

/-- C1 (amended): a save on an open session always commits — also when
the draft name is empty: it writes the draft name, owner, description and
the dates for the draft start/end indices into every store entry carrying
the session's target id, leaves entries with other ids unchanged in the
store, and closes the session.  A save is a no-op only when no session is
open. -/
theorem thd_C1 (chartTags : List Tag) (displayMode : String) (tid : String)
    (ed : EditData) (now : Int) :
    (handleSaveTagEdit chartTags displayMode ⟨some tid, some ed⟩ now).2 =
      ⟨none, none⟩ ∧
    ∀ t ∈ (handleSaveTagEdit chartTags displayMode
        ⟨some tid, some ed⟩ now).1,
      (t.id = tid → t.name = ed.name ∧ t.owner = ed.owner ∧
        t.description = ed.description ∧ t.startDate = ed.startDate ∧
        t.endDate = ed.endDate) ∧
      (¬ t.id = tid → t ∈ chartTags) := by
  refine ⟨rfl, ?_⟩
  intro t ht
  simp only [handleSaveTagEdit] at ht
  obtain ⟨t0, ht0, rfl⟩ := List.mem_map.mp ht
  by_cases h : t0.id = tid
  · simp [h]
  · simp [h]
    exact ht0

/-- C1, witness: the amended theorem applied to a save with an empty
draft name over a one-tag store. -/
theorem thd_C1_witness :
    (handleSaveTagEdit [tagPromo] "both"
        ⟨some "t1", some edEmptyName⟩ 9).2 = ⟨none, none⟩ ∧
    ∀ t ∈ (handleSaveTagEdit [tagPromo] "both"
        ⟨some "t1", some edEmptyName⟩ 9).1,
      (t.id = "t1" → t.name = edEmptyName.name ∧
        t.owner = edEmptyName.owner ∧
        t.description = edEmptyName.description ∧
        t.startDate = edEmptyName.startDate ∧
        t.endDate = edEmptyName.endDate) ∧
      (¬ t.id = "t1" → t ∈ [tagPromo]) :=
  thd_C1 [tagPromo] "both" "t1" edEmptyName 9

/-! ## Reconciler lemmas -/

theorem mem_pinnedEventIds {chartTags : List Tag} {s : String} {t : Tag}
    (ht : t ∈ chartTags) (hs : t.sourceEventId = some s) :
    s ∈ pinnedEventIds chartTags := by
  unfold pinnedEventIds
  refine List.mem_map.mpr ⟨t, List.mem_filter.mpr ⟨ht, by simp [hs]⟩, by simp [hs]⟩

/-- Dissecting membership in `getFilteredEvents`: a visible event comes
from a raw event that is neither dismissed nor pinned, and carries the
adjusted bounds and uniform year label computed by the reconciler. -/
theorem mem_getFilteredEvents {events : List RawEvent}
    {chartData : List ChartPoint} {displayMode : String}
    {dismissedEvents : List String} {chartTags : List Tag}
    {v : VisibleEvent}
    (hv : v ∈ getFilteredEvents events chartData displayMode
      dismissedEvents chartTags) :
    v.toRawEvent ∈ events ∧
    v.id ∉ dismissedEvents ∧
    v.id ∉ pinnedEventIds chartTags ∧
    v.adjustedStart =
      (if displayMode = "ly" then v.startDate - YEAR_SHIFT_MS
       else v.startDate) ∧
    v.adjustedEnd =
      (if displayMode = "ly" then v.endDate - YEAR_SHIFT_MS
       else v.endDate) ∧
    v.yearLabel = (if displayMode = "ly" then "LY" else "TY") := by
  unfold getFilteredEvents at hv
  by_cases hg : events.length = 0 ∨ chartData.length = 0
  · rw [if_pos hg] at hv
    simp at hv
  · rw [if_neg hg] at hv
    rcases hh : chartData.head? with _ | firstPt <;> rw [hh] at hv
    · simp at hv
    · rcases hl : chartData.getLast? with _ | lastPt <;> rw [hl] at hv
      · simp at hv
      · rcases List.mem_filter.mp hv with ⟨hv1, _⟩
        rcases List.mem_map.mp hv1 with ⟨ev, hev, rfl⟩
        rcases List.mem_filter.mp hev with ⟨hev1, hpin⟩
        rcases List.mem_filter.mp hev1 with ⟨hevents, hdis⟩
        simp at hpin hdis
        exact ⟨hevents, by simpa using hdis, by simpa using hpin,
          rfl, rfl, rfl⟩

/-! ## Claim C3: dismissed or pinned events never surface -/

/-- C3 (confirmed): for every input to the reconciler, an event whose id
is in the dismissal set, or whose id equals some stored tag's
`sourceEventId`, never appears in the visible suggestion list. -/
theorem thd_C3 (events : List RawEvent) (chartData : List ChartPoint)
    (displayMode : String) (dismissedEvents : List String)
    (chartTags : List Tag) (v : VisibleEvent)
    (hv : v ∈ getFilteredEvents events chartData displayMode
      dismissedEvents chartTags) :
    v.id ∉ dismissedEvents ∧
    ∀ t ∈ chartTags, t.sourceEventId ≠ some v.id := by
  obtain ⟨_, hdis, hpin, _⟩ := mem_getFilteredEvents hv
  refine ⟨hdis, fun t ht hcontra => hpin (mem_pinnedEventIds ht hcontra)⟩

/-! ## Claim C4: flat 365-day shift and uniform year label -/

/-- C4 (confirmed): every visible event's adjusted bounds are its raw
bounds shifted down by exactly `365 * 24 * 60 * 60 * 1000` ms when
`displayMode = "ly"` and equal to the raw bounds otherwise, and its year
label is `"LY"` exactly in `"ly"` mode and `"TY"` otherwise, uniformly. -/
theorem thd_C4 (events : List RawEvent) (chartData : List ChartPoint)
    (displayMode : String) (dismissedEvents : List String)
    (chartTags : List Tag) (v : VisibleEvent)
    (hv : v ∈ getFilteredEvents events chartData displayMode
      dismissedEvents chartTags) :
    v.adjustedStart =
      (if displayMode = "ly" then v.startDate - YEAR_SHIFT_MS
       else v.startDate) ∧
    v.adjustedEnd =
      (if displayMode = "ly" then v.endDate - YEAR_SHIFT_MS
       else v.endDate) ∧
    (v.yearLabel = "LY" ↔ displayMode = "ly") ∧
    (v.yearLabel = "TY" ↔ ¬ displayMode = "ly") := by
  obtain ⟨_, _, _, hs, he, hl⟩ := mem_getFilteredEvents hv
  refine ⟨hs, he, ?_, ?_⟩ <;> rw [hl] <;>
    by_cases h : displayMode = "ly" <;> simp [h]

/-- C3, witness: with `"e2"` dismissed and `"e3"` pinned, `veThanks`
surfaces and is neither dismissed nor pinned. -/
theorem thd_C3_witness :
    veThanks ∈ getFilteredEvents [evThanks] cd3 "ly" ["e2"] [tagPinnedE3] ∧
    (veThanks.id ∉ (["e2"] : List String) ∧
      ∀ t ∈ [tagPinnedE3], t.sourceEventId ≠ some veThanks.id) :=
  ⟨by decide,
    thd_C3 [evThanks] cd3 "ly" ["e2"] [tagPinnedE3] veThanks (by decide)⟩

/-- C4, witness: `veThanks`'s adjusted bounds are the raw bounds minus
365 days and its label is `"LY"` in `"ly"` mode. -/
theorem thd_C4_witness :
    veThanks ∈ getFilteredEvents [evThanks] cd3 "ly" [] [] ∧
    (veThanks.adjustedStart =
      (if ("ly" : String) = "ly" then veThanks.startDate - YEAR_SHIFT_MS
       else veThanks.startDate) ∧
    veThanks.adjustedEnd =
      (if ("ly" : String) = "ly" then veThanks.endDate - YEAR_SHIFT_MS
       else veThanks.endDate) ∧
    (veThanks.yearLabel = "LY" ↔ ("ly" : String) = "ly") ∧
    (veThanks.yearLabel = "TY" ↔ ¬ ("ly" : String) = "ly")) :=
  ⟨by decide, thd_C4 [evThanks] cd3 "ly" [] [] veThanks (by decide)⟩

/-! ## Claim C2: pinning a visible suggested event -/

/-- C2, counterexample to the claim as stated: in `"ly"` mode the pinned
tag's `startDate` is the raw event date, not the adjusted (year-shifted)
one.  Exactly one event is visible; pinning it appends exactly one tag;
that tag's `startDate` equals the raw start and differs from the
adjusted start. -/
theorem thd_C2_counterexample :
    (getFilteredEvents [evThanks] cd3 "ly" [] []).map
      (fun v => (pinEvent [] v "p1").map
        (fun t => (decide (t.startDate = v.toRawEvent.startDate),
                   decide (t.startDate = v.adjustedStart)))) =
      [[(true, false)]] := by decide

/-- C2 (amended): pinning a visible suggested event appends exactly one
new tag whose `sourceEventId` is the event's id, whose `name` is the
source label, whose `startDate`/`endDate` are the event's **raw** dates
while the adjusted (year-shifted) range is stored in
`adjustedStart`/`adjustedEnd`; afterwards the reconciler run over the
same inputs with the updated store no longer surfaces that event's
id. -/
theorem thd_C2 (events : List RawEvent) (chartData : List ChartPoint)
    (displayMode : String) (dismissedEvents : List String)
    (chartTags : List Tag) (v : VisibleEvent) (uniqueId : String)
    (_hv : v ∈ getFilteredEvents events chartData displayMode
      dismissedEvents chartTags) :
    (∃ nt : Tag,
      pinEvent chartTags v uniqueId = chartTags ++ [nt] ∧
      nt.sourceEventId = some v.id ∧
      nt.name = v.label ∧
      nt.startDate = v.toRawEvent.startDate ∧
      nt.endDate = v.toRawEvent.endDate ∧
      nt.adjustedStart = v.adjustedStart ∧
      nt.adjustedEnd = v.adjustedEnd) ∧
    ∀ w ∈ getFilteredEvents events chartData displayMode dismissedEvents
        (pinEvent chartTags v uniqueId), w.id ≠ v.id := by
  constructor
  · exact ⟨_, rfl, rfl, rfl, rfl, rfl, rfl, rfl⟩
  · intro w hw hcontra
    obtain ⟨_, _, hpin, _⟩ := mem_getFilteredEvents hw
    apply hpin
    apply mem_pinnedEventIds (t :=
      { id := uniqueId, name := v.label, color := v.color,
        sourceEventId := some v.id, isSpan := true,
        startDate := v.toRawEvent.startDate,
        endDate := v.toRawEvent.endDate,
        adjustedStart := v.adjustedStart, adjustedEnd := v.adjustedEnd,
        yearLabel := v.yearLabel, tier := v.tier, source := "suggested" })
    · simp [pinEvent]
    · rw [hcontra]

/-- C2, witness: pinning `veThanks` into an empty store. -/
theorem thd_C2_witness :
    veThanks ∈ getFilteredEvents [evThanks] cd3 "ly" [] [] ∧
    ((∃ nt : Tag,
      pinEvent [] veThanks "p1" = [] ++ [nt] ∧
      nt.sourceEventId = some veThanks.id ∧
      nt.name = veThanks.label ∧
      nt.startDate = veThanks.toRawEvent.startDate ∧
      nt.endDate = veThanks.toRawEvent.endDate ∧
      nt.adjustedStart = veThanks.adjustedStart ∧
      nt.adjustedEnd = veThanks.adjustedEnd) ∧
    ∀ w ∈ getFilteredEvents [evThanks] cd3 "ly" []
        (pinEvent [] veThanks "p1"), w.id ≠ veThanks.id) :=
  ⟨by decide, thd_C2 [evThanks] cd3 "ly" [] [] veThanks "p1" (by decide)⟩

/-! ## Claim C5: drop commits a point annotation and opens its editor -/

/-- C5 (confirmed): with an active drag over a nonempty data sequence
(and an available container rect), `handleDrop` appends exactly one new
tag whose start and end indices both equal the drop index
`getDateIndexFromX x` (its dates equal too — a point), marked manual,
and the controller transitions to an edit session seeded from that new
tag. -/
theorem thd_C5 (st : EditorState) (dt : Tag) (chartData : List ChartPoint)
    (chartTags : List Tag) (r : Rect) (x : ℚ) (uniqueId : String)
    (now : Int) (h : 1 ≤ chartData.length) :
    ∃ newTag : Tag,
      (handleDrop st (some dt) chartData chartTags (some r) x uniqueId
        now).1 = chartTags ++ [newTag] ∧
      newTag.startIndex = getDateIndexFromX chartData (some r) x ∧
      newTag.endIndex = getDateIndexFromX chartData (some r) x ∧
      newTag.startDate = newTag.endDate ∧
      newTag.isSpan = false ∧
      newTag.isManual = true ∧
      newTag.id = uniqueId ∧
      newTag.name = dt.name ∧
      (handleDrop st (some dt) chartData chartTags (some r) x uniqueId
        now).2 =
        { editingTagId := some uniqueId,
          editingTagData := some
            { name := newTag.name, owner := newTag.owner,
              description := newTag.description,
              startDate := newTag.startDate, endDate := newTag.endDate,
              startIndex := newTag.startIndex,
              endIndex := newTag.endIndex } } := by
  have hrange := getDateIndexFromX_range chartData r x h
  obtain ⟨pt, hpt⟩ := jsIndex_eq_some_of_range chartData
    (getDateIndexFromX chartData (some r) x) hrange.1 (by omega)
  simp only [handleDrop]
  rw [if_neg (by omega), hpt]
  exact ⟨_, rfl, rfl, rfl, rfl, rfl, rfl, rfl, rfl, rfl⟩

/-- C5, witness: dropping a Promo template on `cd5` at a pixel inside
the usable width. -/
theorem thd_C5_witness :
    1 ≤ cd5.length ∧
    ∃ newTag : Tag,
      (handleDrop ⟨none, none⟩ (some { id := "promo", name := "Promo" })
        cd5 [] (some ⟨0, 490⟩) 280 "u1" 7).1 = [] ++ [newTag] ∧
      newTag.startIndex = getDateIndexFromX cd5 (some ⟨0, 490⟩) 280 ∧
      newTag.endIndex = getDateIndexFromX cd5 (some ⟨0, 490⟩) 280 ∧
      newTag.startDate = newTag.endDate ∧
      newTag.isSpan = false ∧
      newTag.isManual = true ∧
      newTag.id = "u1" ∧
      newTag.name = ({ id := "promo", name := "Promo" } : Tag).name ∧
      (handleDrop ⟨none, none⟩ (some { id := "promo", name := "Promo" })
        cd5 [] (some ⟨0, 490⟩) 280 "u1" 7).2 =
        { editingTagId := some "u1",
          editingTagData := some
            { name := newTag.name, owner := newTag.owner,
              description := newTag.description,
              startDate := newTag.startDate, endDate := newTag.endDate,
              startIndex := newTag.startIndex,
              endIndex := newTag.endIndex } } :=
  ⟨by decide,
    thd_C5 ⟨none, none⟩ { id := "promo", name := "Promo" } cd5 []
      ⟨0, 490⟩ 280 "u1" 7 (by decide)⟩

/-! ## Claim C8: the draft range never inverts -/

theorem handleStartDateChange_inv (cd : List ChartPoint) (ed : EditData)
    (i : Int) (hinv : ed.startIndex ≤ ed.endIndex) :
    (handleStartDateChange cd ed i).startIndex ≤
      (handleStartDateChange cd ed i).endIndex := by
  simp only [handleStartDateChange]
  by_cases hg : i < 0 ∨ (cd.length : Int) ≤ i
  · rw [if_pos hg]
    exact hinv
  · rw [if_neg hg]
    rcases getDateFromIndex cd i with _ | d
    · exact hinv
    · by_cases hlt : ed.endIndex < i <;> simp [hlt] <;> omega

theorem handleEndDateChange_inv (cd : List ChartPoint) (ed : EditData)
    (i : Int) (hinv : ed.startIndex ≤ ed.endIndex) :
    (handleEndDateChange cd ed i).startIndex ≤
      (handleEndDateChange cd ed i).endIndex := by
  simp only [handleEndDateChange]
  by_cases hg : i < 0 ∨ (cd.length : Int) ≤ i
  · rw [if_pos hg]
    exact hinv
  · rw [if_neg hg]
    rcases getDateFromIndex cd i with _ | d
    · exact hinv
    · by_cases hlt : i < ed.startIndex <;> simp [hlt] <;> omega

theorem applyEditOps_inv (cd : List ChartPoint) (ops : List EditOp) :
    ∀ ed : EditData, ed.startIndex ≤ ed.endIndex →
      (applyEditOps cd ed ops).startIndex ≤
        (applyEditOps cd ed ops).endIndex := by
  induction ops with
  | nil => exact fun ed h => h
  | cons op ops ih =>
    intro ed h
    simp only [applyEditOps, List.foldl] at ih ⊢
    rcases op with i | i
    · exact ih _ (handleStartDateChange_inv cd ed i h)
    · exact ih _ (handleEndDateChange_inv cd ed i h)

theorem getDateFromIndex_eq_some (cd : List ChartPoint) (i : Int)
    (h0 : 0 ≤ i) (h1 : i < (cd.length : Int)) :
    ∃ d : Int, getDateFromIndex cd i = some d := by
  obtain ⟨pt, hpt⟩ := jsIndex_eq_some_of_range cd i h0 h1
  refine ⟨pt.date, ?_⟩
  rw [getDateFromIndex, if_neg (by omega), hpt]
  rfl

/-- C8 (confirmed): starting from any open session whose draft satisfies
`startIndex ≤ endIndex`, the invariant holds after any finite sequence of
`changeStartIndex`/`changeEndIndex` operations with arbitrary integer
arguments; moving the start past the current end pulls the end up to
match, and moving the end before the current start pulls the start down
to match. -/
theorem thd_C8 (cd : List ChartPoint) (ed : EditData) (ops : List EditOp)
    (hinv : ed.startIndex ≤ ed.endIndex) :
    (applyEditOps cd ed ops).startIndex ≤
      (applyEditOps cd ed ops).endIndex ∧
    (∀ i : Int, 0 ≤ i → i < (cd.length : Int) → ed.endIndex < i →
      (handleStartDateChange cd ed i).startIndex = i ∧
      (handleStartDateChange cd ed i).endIndex = i) ∧
    (∀ i : Int, 0 ≤ i → i < (cd.length : Int) → i < ed.startIndex →
      (handleEndDateChange cd ed i).endIndex = i ∧
      (handleEndDateChange cd ed i).startIndex = i) := by
  refine ⟨applyEditOps_inv cd ops ed hinv, ?_, ?_⟩
  · intro i h0 h1 hpull
    obtain ⟨d, hd⟩ := getDateFromIndex_eq_some cd i h0 h1
    simp only [handleStartDateChange]
    rw [if_neg (by omega), hd]
    simp [hpull]
  · intro i h0 h1 hpull
    obtain ⟨d, hd⟩ := getDateFromIndex_eq_some cd i h0 h1
    simp only [handleEndDateChange]
    rw [if_neg (by omega), hd]
    simp [hpull]

/-- C8, witness: a draft at 1..1 over five samples, driven by a sequence
that moves the start past the end and then the end before the start. -/
theorem thd_C8_witness :
    (⟨"Promo", "", "", 1, 1, 1, 1⟩ : EditData).startIndex ≤
      (⟨"Promo", "", "", 1, 1, 1, 1⟩ : EditData).endIndex ∧
    ((applyEditOps cd5 ⟨"Promo", "", "", 1, 1, 1, 1⟩
        [EditOp.changeStart 3, EditOp.changeEnd 0,
          EditOp.changeStart 9]).startIndex ≤
      (applyEditOps cd5 ⟨"Promo", "", "", 1, 1, 1, 1⟩
        [EditOp.changeStart 3, EditOp.changeEnd 0,
          EditOp.changeStart 9]).endIndex ∧
    (∀ i : Int, 0 ≤ i → i < (cd5.length : Int) →
      (⟨"Promo", "", "", 1, 1, 1, 1⟩ : EditData).endIndex < i →
      (handleStartDateChange cd5 ⟨"Promo", "", "", 1, 1, 1, 1⟩
        i).startIndex = i ∧
      (handleStartDateChange cd5 ⟨"Promo", "", "", 1, 1, 1, 1⟩
        i).endIndex = i) ∧
    (∀ i : Int, 0 ≤ i → i < (cd5.length : Int) →
      i < (⟨"Promo", "", "", 1, 1, 1, 1⟩ : EditData).startIndex →
      (handleEndDateChange cd5 ⟨"Promo", "", "", 1, 1, 1, 1⟩
        i).endIndex = i ∧
      (handleEndDateChange cd5 ⟨"Promo", "", "", 1, 1, 1, 1⟩
        i).startIndex = i)) :=
  ⟨by decide,
    thd_C8 cd5 ⟨"Promo", "", "", 1, 1, 1, 1⟩
      [EditOp.changeStart 3, EditOp.changeEnd 0, EditOp.changeStart 9]
      (by decide)⟩

end THD
